import Mathlib

/-!
Shallow embedding of the Foris form engine (src/fapi.py): the value model,
the merged data view of `ForisForm.data`, requirement checking
(`Field.has_requirements`), data cleaning (`ForisForm.clean_data`), the
two memoized caches and `invalidate_data`, the remote-data update loop
(`ForisForm._update_nuci_data`), field registration of defaults
(`Field.__init__`), the adapter binding of `Field.field`, and the
save-callback protocol (`ForisForm.save` / `process_callbacks`).
Theorems at the end check the specification sentence by sentence.
-/

namespace Foris

/-- Python values as they occur in the engine: strings (request, default and
remote values), booleans (produced by checkbox coercion) and the None object. -/
inductive Value where
  | str : String → Value
  | bool : Bool → Value
  | none : Value
deriving DecidableEq, Repr

/-- Python truthiness (`bool(v)`) for the values of the model: the empty
string, False and None are falsy, everything else is truthy. -/
def truthy : Value → Bool
  | Value.str s => !(s == "")
  | Value.bool b => b
  | Value.none => false

/-- Python `x or y`: the left operand when truthy, otherwise the right one. -/
def pyOr (v fallback : Value) : Value :=
  if truthy v then v else fallback

/-- Python dictionaries, embedded as association lists in which the first
binding of a key is its value. -/
abbrev Dict := List (String × Value)

/-- Lookup of `d[k]` returning `Option.none` when the key is absent. -/
def dictFind (d : Dict) (k : String) : Option Value :=
  match List.find? (fun kv => kv.1 == k) d with
  | some kv => some kv.2
  | Option.none => Option.none

/-- Python `k in d`. -/
def dictContains (d : Dict) (k : String) : Bool :=
  (dictFind d k).isSome

/-- Python `d.get(k)`, whose default is the None object. -/
def dictGet (d : Dict) (k : String) : Value :=
  (dictFind d k).getD Value.none

/-- Assignment `d[k] = v`: the new binding shadows any older one. -/
def dictSet (d : Dict) (k : String) (v : Value) : Dict :=
  (k, v) :: d

/-- Python `base.update(overlay)`: every key of the overlay wins, every
other key keeps the value it had in the base. -/
def dictUpdate (base overlay : Dict) : Dict :=
  overlay ++ base

/-- Python `d.setdefault(k, v)`: insert `k ↦ v` only when `k` is absent. -/
def dictSetdefault (d : Dict) (k : String) (v : Value) : Dict :=
  if dictContains d k then d else d ++ [(k, v)]

/-- Validator capability at its boundary (the validators module is out of
scope): a predicate on values plus the failure message it reports. -/
structure Validator where
  check : Value → Bool
  msg : String

/-- Field of the form tree, embedding the attributes of `Field.__init__`
that the engine reads: the name, whether the type is checkbox-like, the
optional remote-config path with its value extractor, the requirement
pairs registered by `Field.requires` (a required value of `Value.none` is
the "any value" sentinel), the validators, and the `default` keyword
argument (the None object when not given). -/
structure Field where
  name : String
  isCheckbox : Bool
  nuciPath : Option String
  nuciPreproc : Value → Value
  requirements : List (String × Value)
  validators : List Validator
  default : Value

/-- Truthiness of `field.nuci_path` as tested by `_update_nuci_data`. -/
def nuciPathTruthy (f : Field) : Bool :=
  match f.nuciPath with
  | some p => !(p == "")
  | Option.none => false

/-- One requirement pair of `Field.has_requirements`: the Python ternary
binds as `(result and True) if req_value is None else (data.get(req_name)
== req_value)`, so the presence test only decides the sentinel case. -/
def requirementMet (data : Dict) (rn : String) (rv : Value) : Bool :=
  let result := dictContains data rn
  match rv with
  | Value.none => result && true
  | _ => dictGet data rn == rv

/-- Embedding of `Field.has_requirements(data)`: every requirement pair
must be met, an empty requirement mapping is trivially met. -/
def hasRequirements (f : Field) (data : Dict) : Bool :=
  f.requirements.all fun rq => requirementMet data rq.1 rq.2

/-- Checkbox coercion of `clean_data`: the literal string "0" becomes
False, any other value becomes its truthiness. -/
def checkboxCoerce (v : Value) : Value :=
  if v == Value.str "0" then Value.bool false else Value.bool (truthy v)

/-- One iteration of the `clean_data` loop for one field: the unguarded
lookup `data[field.name]` may fail with KeyError (hence Option), then the
value is re-stored, coerced when the field is checkbox-typed. -/
def cleanStep (data nd : Dict) (f : Field) : Option Dict :=
  (dictFind data f.name).map fun v =>
    let v2 := if dictContains data f.name && f.isCheckbox then checkboxCoerce v else v
    dictSet nd f.name v2

/-- First phase of `clean_data`: rebuild `new_data` field by field with
checkbox coercion applied. -/
def coerceAll (fields : List Field) (data : Dict) : Option Dict :=
  fields.foldlM (fun nd f => cleanStep data nd f) ([] : Dict)

/-- Names of fields whose requirements are met against `d`, as computed by
`_get_active_fields(data=d)`. -/
def activeFieldNames (fields : List Field) (d : Dict) : List String :=
  (fields.filter (fun f => hasRequirements f d)).map (fun f => f.name)

/-- Embedding of `ForisForm.clean_data`: coerce every declared field, then
keep only the entries whose key is the name of an active field (activity
judged against the coerced map itself). -/
def cleanData (fields : List Field) (data : Dict) : Option Dict :=
  (coerceAll fields data).map fun nd =>
    nd.filter fun kv => (activeFieldNames fields nd).contains kv.1

/-- Merged map of the `data` property: start from an empty dict, update
with defaults, then with the remote (nuci) data, then with request data. -/
def mergeData (defaults nuciData requestData : Dict) : Dict :=
  dictUpdate (dictUpdate (dictUpdate [] defaults) nuciData) requestData



/-- Branches of the body of the `_update_nuci_data` loop: the `if
field.nuci_path` branch, the `elif field.nuci_path` branch that constructs
the "Cannot map value from Nuci" error, and the fall-through when the path
is falsy. -/
inductive NuciBranch where
  | ifBranch : NuciBranch
  | elifBranch : NuciBranch
  | skip : NuciBranch
deriving DecidableEq, Repr

/-- Branch selection of the `_update_nuci_data` loop body, embedding the
`if`/`elif` chain literally: the `elif` tests the identical condition. -/
def updateNuciBranch (f : Field) : NuciBranch :=
  if nuciPathTruthy f then NuciBranch.ifBranch
  else if nuciPathTruthy f then NuciBranch.elifBranch
  else NuciBranch.skip

/-- One iteration of `_update_nuci_data` for one field: when the path is
truthy, look the path up in the remote config and store the preprocessed
value if one was found; the `elif` branch, were it reached, constructs an
error object without raising it, so it leaves the data unchanged. -/
def updateNuciStep (findChild : String → Option Value) (nd : Dict) (f : Field) : Dict :=
  if nuciPathTruthy f then
    match f.nuciPath.bind findChild with
    | some v => dictSet nd f.name (f.nuciPreproc v)
    | Option.none => nd
  else if nuciPathTruthy f then nd
  else nd

/-- Embedding of `ForisForm._update_nuci_data`: fold the loop body over
all fields, threading the `_nuci_data` dictionary. -/
def updateNuciData (findChild : String → Option Value) (fields : List Field) (nd : Dict) : Dict :=
  fields.foldl (updateNuciStep findChild) nd

/-- Result of one save callback: the tuple tag is "none", "edit_config"
with a payload, or some other unsupported tag. -/
inductive CbResult where
  | noneOp : CbResult
  | editConfig : Value → CbResult
  | other : String → CbResult

/-- Tag discriminator: true exactly for results whose tag is neither
"none" nor "edit_config". -/
def isOtherTag : CbResult → Bool
  | CbResult.other _ => true
  | _ => false

/-- Observable events of the save path: `add_config_update(payload)` and
the final `commit()` call. -/
inductive SaveEvent where
  | stage : Value → SaveEvent
  | commitCall : SaveEvent
deriving DecidableEq, Repr

/-- Embedding of `ForisForm.process_callbacks`: run the callbacks in
registration order, record a stage event per "edit_config" result, skip
"none" results, and stop with the tag of the first unsupported result
(the raised NotImplementedError). -/
def processCallbacks : List (Dict → CbResult) → Dict → List SaveEvent × Option String
  | [], _ => ([], Option.none)
  | cb :: rest, d =>
    match cb d with
    | CbResult.noneOp => processCallbacks rest d
    | CbResult.editConfig p =>
      let r := processCallbacks rest d
      (SaveEvent.stage p :: r.1, r.2)
    | CbResult.other tag => ([], some tag)

/-- Stage events produced by a callback list on given data, in
registration order. -/
def stagedEdits (cbs : List (Dict → CbResult)) (d : Dict) : List SaveEvent :=
  cbs.filterMap fun cb =>
    match cb d with
    | CbResult.editConfig p => some (SaveEvent.stage p)
    | _ => Option.none

/-- Rendered form as cached by `ForisForm._form`: the names of the active
fields whose adapters became its inputs, and the data it was filled with. -/
structure RenderForm where
  inputNames : List String
  filledData : Dict
deriving DecidableEq, Repr

/-- State of a `ForisForm` instance: the three value sources, the field
list of the tree (`_get_all_fields`), the memoized remote config lookup,
the two caches, the `validated` flag and the registered callbacks. -/
structure FormState where
  requestData : Dict
  nuciData : Dict
  defaults : Dict
  fields : List Field
  findChild : String → Option Value
  dataCache : Option Dict
  formCache : Option RenderForm
  validated : Bool
  callbacks : List (Dict → CbResult)

/-- Embedding of the `data` property: return the cache when present,
otherwise update the nuci data, merge defaults, nuci data and request
data, clean the merged map, and cache the result. KeyError during
cleaning surfaces as `Option.none`. -/
def readData (s : FormState) : Option (Dict × FormState) :=
  match s.dataCache with
  | some d => some (d, s)
  | Option.none =>
    let nd := updateNuciData s.findChild s.fields s.nuciData
    match cleanData s.fields (mergeData s.defaults nd s.requestData) with
    | some d => some (d, { s with nuciData := nd, dataCache := some d })
    | Option.none => Option.none

/-- Embedding of `ForisForm.invalidate_data`: clear the data cache and
nothing else. -/
def invalidateData (s : FormState) : FormState :=
  { s with dataCache := Option.none }

/-- External mutation of the request data dictionary by a caller. -/
def setRequestData (s : FormState) (d : Dict) : FormState :=
  { s with requestData := d }

/-- Embedding of the `_form` property: return the cache when present,
otherwise collect the active fields (a `data` read), build the form from
their adapters, fill it with `data` (a second, now cached, read) and
cache it. -/
def readForm (s : FormState) : Option (RenderForm × FormState) :=
  match s.formCache with
  | some fm => some (fm, s)
  | Option.none =>
    match readData s with
    | Option.none => Option.none
    | some (d1, s1) =>
      match readData s1 with
      | Option.none => Option.none
      | some (d2, s2) =>
        let fm : RenderForm :=
          { inputNames := activeFieldNames s1.fields d1, filledData := d2 }
        some (fm, { s2 with formCache := some fm })

/-- Embedding of `ForisForm.save`: read the merged data, process the
callbacks with it, and append the single `commit()` call when no callback
raised; a raised unsupported-tag error aborts before the commit. -/
def save (s : FormState) : Option (List SaveEvent × Option String × FormState) :=
  (readData s).map fun ds =>
    match (processCallbacks ds.2.callbacks ds.1).2 with
    | Option.none =>
      ((processCallbacks ds.2.callbacks ds.1).1 ++ [SaveEvent.commitCall], Option.none, ds.2)
    | some tag => ((processCallbacks ds.2.callbacks ds.1).1, some tag, ds.2)

/-- Rendering adapter of a field, at the boundary the engine sees: the
value it was bound to and its validation note. -/
structure Adapter where
  value : Value
  note : String
deriving DecidableEq, Repr

/-- Modelled from the spec: the rendering-adapter capability of the
`form` module, which is part of this repository but absent from src.
`Adapter.validate(data, name)` checks the value under `name` (absent
means the None object) against the field validators and records the
failure message of the first failing validator as its note; a passing
value leaves an empty note. -/
def adapterValidate (f : Field) (data : Dict) : Adapter :=
  match f.validators.find? (fun vd => !(vd.check (dictGet data f.name))) with
  | some vd => { value := dictGet data f.name, note := vd.msg }
  | Option.none => { value := dictGet data f.name, note := "" }

/-- Embedding of the binding step of `Field.field`: when the form has
been validated the adapter validates itself against the merged data,
otherwise it is seeded for display with `data.get(name) or ""` and
carries no note. -/
def buildAdapter (validated : Bool) (f : Field) (data : Dict) : Adapter :=
  if validated then adapterValidate f data
  else { value := pyOr (dictGet data f.name) (Value.str ""), note := "" }

/-- Embedding of `ForisForm.validate`: set the `validated` flag, then ask
every active field adapter to validate against the merged data; overall
validity is the conjunction of empty notes (the `validates` behaviour of
the out-of-src form module, modelled from the spec). -/
def validateForm (s : FormState) : Option (Bool × FormState) :=
  (readData { s with validated := true }).map fun ds =>
    ((ds.2.fields.filter fun f => hasRequirements f ds.1).all
      (fun f => (adapterValidate f ds.1).note == ""), ds.2)

/-- Form under construction through the public API: the fields collected
in the tree and the defaults dictionary that `Field.__init__` fills via
`setdefault`. -/
structure FormBuild where
  fields : List Field
  defaults : Dict

/-- Fresh form: no fields, empty defaults. -/
def emptyBuild : FormBuild :=
  { fields := [], defaults := [] }

/-- Embedding of a `Section.add_field` call, which constructs a
`Field(main_form, ...)`: the field joins the tree and `Field.__init__`
runs `main_form.defaults.setdefault(name, default)`. -/
def addField (fb : FormBuild) (f : Field) : FormBuild :=
  { fields := fb.fields ++ [f],
    defaults := dictSetdefault fb.defaults f.name f.default }

/-- Form assembled through the public API by adding the given fields in
order. -/
def buildForm (fs : List Field) : FormBuild :=
  fs.foldl addField emptyBuild

section Examples

/-- Example plain field named "mode" with no requirements. -/
def exModeField : Field :=
  { name := "mode", isCheckbox := false, nuciPath := Option.none,
    nuciPreproc := fun v => v, requirements := [], validators := [],
    default := Value.none }

/-- Example field named "adv" requiring `mode == "advanced"`. -/
def exAdvField : Field :=
  { name := "adv", isCheckbox := false, nuciPath := Option.none,
    nuciPreproc := fun v => v, requirements := [("mode", Value.str "advanced")],
    validators := [], default := Value.none }

/-- Example checkbox field named "cb". -/
def exCbField : Field :=
  { name := "cb", isCheckbox := true, nuciPath := Option.none,
    nuciPreproc := fun v => v, requirements := [], validators := [],
    default := Value.none }

/-- Example required field: a validator failing on falsy values. -/
def exValField : Field :=
  { name := "mode", isCheckbox := false, nuciPath := Option.none,
    nuciPreproc := fun v => v, requirements := [],
    validators := [{ check := truthy, msg := "required" }],
    default := Value.none }

/-- Example form state with a single plain "mode" field, a given request
dictionary and a given data cache. -/
def exState (rq : Dict) (cache : Option Dict) : FormState :=
  { requestData := rq, nuciData := [], defaults := [("mode", Value.none)],
    fields := [exModeField], findChild := fun _ => Option.none,
    dataCache := cache, formCache := Option.none, validated := false,
    callbacks := [] }

/-- Example form state with callbacks and a populated data cache. -/
def exSaveState (cbs : List (Dict → CbResult)) : FormState :=
  { requestData := [("mode", Value.str "1")], nuciData := [],
    defaults := [("mode", Value.none)], fields := [exModeField],
    findChild := fun _ => Option.none,
    dataCache := some [("mode", Value.str "1")], formCache := Option.none,
    validated := false, callbacks := cbs }

/-- Example state after a first form read, built by running `readForm` on
a fresh state whose request data holds `mode = "1"`. -/
def exStateAfterForm : FormState :=
  ((readForm (exState [("mode", Value.str "1")] Option.none)).map Prod.snd).getD
    (exState [] Option.none)

/-- Example state after the request data changed to `mode = "2"` and
`invalidate_data` was called, with the form cache still populated. -/
def exStateStale : FormState :=
  invalidateData (setRequestData exStateAfterForm [("mode", Value.str "2")])

/-- Example cached render form holding `mode = "1"`. -/
def exRenderForm : RenderForm :=
  { inputNames := ["mode"], filledData := [("mode", Value.str "1")] }

/-- Example state whose form cache is populated with `exRenderForm`. -/
def exCachedState : FormState :=
  { exState [] Option.none with formCache := some exRenderForm }

end Examples

section DictLemmas

theorem dictFind_append_left {a : Dict} (b : Dict) {k : String} {v : Value}
    (h : dictFind a k = some v) : dictFind (a ++ b) k = some v := by
  induction a with
  | nil => simp [dictFind] at h
  | cons kv rest ih =>
    by_cases hk : kv.1 = k
    · simp [dictFind, List.find?, hk] at h ⊢
      exact h
    · simp only [dictFind, List.find?, List.cons_append] at h ⊢
      have hbeq : (kv.1 == k) = false := by
        simpa using hk
      rw [hbeq] at h ⊢
      exact ih h

theorem dictFind_append_right {a : Dict} (b : Dict) {k : String}
    (h : dictFind a k = Option.none) : dictFind (a ++ b) k = dictFind b k := by
  induction a with
  | nil => simp
  | cons kv rest ih =>
    by_cases hk : kv.1 = k
    · simp [dictFind, List.find?, hk] at h
    · simp only [dictFind, List.find?, List.cons_append] at h ⊢
      have hbeq : (kv.1 == k) = false := by
        simpa using hk
      rw [hbeq] at h ⊢
      exact ih h

theorem dictFind_set_self (d : Dict) (k : String) (v : Value) :
    dictFind (dictSet d k v) k = some v := by
  simp [dictFind, dictSet, List.find?]

theorem dictFind_set_ne (d : Dict) {k k2 : String} (v : Value) (h : k2 ≠ k) :
    dictFind (dictSet d k v) k2 = dictFind d k2 := by
  have hbeq : (k == k2) = false := by
    simpa using fun he => h he.symm
  simp [dictFind, dictSet, List.find?, hbeq]

theorem dictFind_filter_key (l : Dict) (p : String → Bool) (k : String) :
    dictFind (l.filter fun kv => p kv.1) k =
      if p k then dictFind l k else Option.none := by
  induction l with
  | nil => simp [dictFind]
  | cons kv rest ih =>
    by_cases hk : kv.1 = k
    · subst hk
      by_cases hp : p kv.1
      · simp [dictFind, List.filter, List.find?, hp]
      · simp only [List.filter, hp]
        rw [ih]
        simp [dictFind, List.find?, hp]
    · have hbeq : (kv.1 == k) = false := by
        simpa using hk
      by_cases hp : p kv.1
      · simp only [List.filter, hp]
        simp only [dictFind, List.find?, hbeq] at ih ⊢
        exact ih
      · simp only [List.filter, hp]
        rw [ih]
        simp [dictFind, List.find?, hbeq]

theorem dictContains_setdefault_self (d : Dict) (k : String) (v : Value) :
    dictContains (dictSetdefault d k v) k = true := by
  unfold dictSetdefault
  by_cases h : dictContains d k
  · simp [h]
  · simp only [h, if_neg, Bool.false_eq_true, if_false]
    simp only [dictContains] at h ⊢
    cases hf : dictFind d k with
    | some v2 => simp [hf] at h
    | none =>
      rw [dictFind_append_right _ hf]
      simp [dictFind, List.find?]

theorem dictContains_setdefault_mono (d : Dict) (k k2 : String) (v : Value)
    (h : dictContains d k2 = true) :
    dictContains (dictSetdefault d k v) k2 = true := by
  unfold dictSetdefault
  by_cases hc : dictContains d k
  · simpa [hc]
  · simp only [hc, Bool.false_eq_true, if_false]
    simp only [dictContains] at h ⊢
    cases hf : dictFind d k2 with
    | some v2 => rw [dictFind_append_left _ hf]; rfl
    | none => simp [hf] at h

theorem dictFind_setdefault_fresh (d : Dict) (k : String) (v : Value)
    (h : dictContains d k = false) :
    dictFind (dictSetdefault d k v) k = some v := by
  unfold dictSetdefault
  simp only [h, Bool.false_eq_true, if_false]
  simp only [dictContains] at h
  cases hf : dictFind d k with
  | some v2 => simp [hf] at h
  | none =>
    rw [dictFind_append_right _ hf]
    simp [dictFind, List.find?]

end DictLemmas

section SupportLemmas

theorem dictContains_append_left (a b : Dict) (k : String)
    (h : dictContains a k = true) : dictContains (a ++ b) k = true := by
  simp only [dictContains, Option.isSome_iff_exists] at h
  obtain ⟨v, hv⟩ := h
  simp [dictContains, dictFind_append_left b hv]

theorem dictContains_append_right (a b : Dict) (k : String)
    (h : dictContains b k = true) : dictContains (a ++ b) k = true := by
  cases hf : dictFind a k with
  | some v => simp [dictContains, dictFind_append_left b hf]
  | none => rw [dictContains, dictFind_append_right b hf]; exact h

theorem dictContains_merge_of_defaults (df nd rq : Dict) (k : String)
    (h : dictContains df k = true) :
    dictContains (mergeData df nd rq) k = true := by
  unfold mergeData dictUpdate
  exact dictContains_append_right _ _ _
    (dictContains_append_right _ _ _ (dictContains_append_left _ _ _ h))

theorem dictGet_contains_of_ne_none {data : Dict} {rn : String} {rv : Value}
    (hne : rv ≠ Value.none) (hg : dictGet data rn = rv) :
    dictContains data rn = true := by
  unfold dictGet at hg
  cases hf : dictFind data rn with
  | some v => simp [dictContains, hf]
  | none =>
    rw [hf] at hg
    exact absurd hg.symm (by simpa using hne)

theorem requirementMet_iff (data : Dict) (rn : String) (rv : Value) :
    requirementMet data rn rv = true ↔
      dictContains data rn = true ∧ (rv = Value.none ∨ dictGet data rn = rv) := by
  cases rv with
  | none => simp [requirementMet]
  | str s =>
    simp only [requirementMet]
    constructor
    · intro h
      have hg : dictGet data rn = Value.str s := by simpa using h
      exact ⟨dictGet_contains_of_ne_none (by simp) hg, Or.inr hg⟩
    · rintro ⟨hc, h | hg⟩
      · simp at h
      · simpa using hg
  | bool b =>
    simp only [requirementMet]
    constructor
    · intro h
      have hg : dictGet data rn = Value.bool b := by simpa using h
      exact ⟨dictGet_contains_of_ne_none (by simp) hg, Or.inr hg⟩
    · rintro ⟨hc, h | hg⟩
      · simp at h
      · simpa using hg

theorem cleanStep_some {data nd : Dict} {f : Field} {v : Value}
    (hv : dictFind data f.name = some v) :
    cleanStep data nd f =
      some (dictSet nd f.name (if f.isCheckbox then checkboxCoerce v else v)) := by
  have hc : dictContains data f.name = true := by simp [dictContains, hv]
  unfold cleanStep
  rw [hv]
  simp [hc]

theorem coerceFold_isSome {data : Dict} :
    ∀ (fields : List Field) (nd : Dict),
      (∀ f ∈ fields, dictContains data f.name = true) →
      (fields.foldlM (fun nd f => cleanStep data nd f) nd).isSome = true := by
  intro fields
  induction fields with
  | nil => intro nd _; simp
  | cons g rest ih =>
    intro nd h
    have hg : dictContains data g.name = true := h g (by simp)
    obtain ⟨v, hv⟩ : ∃ v, dictFind data g.name = some v := by
      simpa [dictContains, Option.isSome_iff_exists] using hg
    rw [List.foldlM_cons, cleanStep_some hv]
    exact ih _ (fun f hf => h f (by simp [hf]))

theorem coerceAll_isSome {data : Dict} {fields : List Field}
    (h : ∀ f ∈ fields, dictContains data f.name = true) :
    (coerceAll fields data).isSome = true :=
  coerceFold_isSome fields [] h

theorem activeFieldNames_contains_of {fields : List Field} {f : Field} {d : Dict}
    (hf : f ∈ fields) (ha : hasRequirements f d = true) :
    (activeFieldNames fields d).contains f.name = true := by
  unfold activeFieldNames
  have h1 : f ∈ fields.filter (fun f => hasRequirements f d) :=
    List.mem_filter.mpr ⟨hf, ha⟩
  have h2 : f.name ∈ (fields.filter (fun f => hasRequirements f d)).map (fun f => f.name) :=
    List.mem_map_of_mem _ h1
  exact List.elem_eq_true_of_mem h2

theorem coerceFold_find {data : Dict} {k : String} {v : Value}
    (hv : dictFind data k = some v) :
    ∀ (fields : List Field) (nd nd2 : Dict),
      (∀ g ∈ fields, g.name = k → g.isCheckbox = false) →
      fields.foldlM (fun nd f => cleanStep data nd f) nd = some nd2 →
      ((∃ g ∈ fields, g.name = k) → dictFind nd2 k = some v)
      ∧ ((∀ g ∈ fields, g.name ≠ k) → dictFind nd2 k = dictFind nd k) := by
  intro fields
  induction fields with
  | nil =>
    intro nd nd2 _ hfold
    have hnd : nd = nd2 := by simpa using hfold
    subst hnd
    exact ⟨fun h => by simp at h, fun _ => rfl⟩
  | cons g rest ih =>
    intro nd nd2 hcb hfold
    obtain ⟨u, hu⟩ : ∃ u, dictFind data g.name = some u := by
      cases hfd : dictFind data g.name with
      | some u => exact ⟨u, rfl⟩
      | none =>
        rw [List.foldlM_cons] at hfold
        unfold cleanStep at hfold
        rw [hfd] at hfold
        simp at hfold
    rw [List.foldlM_cons, cleanStep_some hu] at hfold
    have hfold2 : rest.foldlM (fun nd f => cleanStep data nd f)
        (dictSet nd g.name (if g.isCheckbox then checkboxCoerce u else u)) = some nd2 := hfold
    have hrest := ih (dictSet nd g.name (if g.isCheckbox then checkboxCoerce u else u)) nd2
      (fun h hh => hcb h (by simp [hh])) hfold2
    by_cases hgk : g.name = k
    · have hcb0 : g.isCheckbox = false := hcb g (by simp) hgk
      have hwv : (if g.isCheckbox then checkboxCoerce u else u) = v := by
        rw [hcb0]
        simp only [Bool.false_eq_true, if_false]
        rw [hgk] at hu
        rw [hu] at hv
        exact (Option.some.injEq _ _ ▸ hv).symm ▸ rfl
      have hnd1 : dictFind (dictSet nd g.name (if g.isCheckbox then checkboxCoerce u else u)) k
          = some v := by
        rw [hgk, hwv]
        exact dictFind_set_self nd k v
      constructor
      · intro _
        by_cases hex : ∃ g2 ∈ rest, g2.name = k
        · exact hrest.1 hex
        · have hall : ∀ g2 ∈ rest, g2.name ≠ k := by
            intro g2 hg2
            exact fun he => hex ⟨g2, hg2, he⟩
          rw [hrest.2 hall, hnd1]
      · intro hall
        exact absurd hgk (hall g (by simp))
    · have hnd1 : dictFind (dictSet nd g.name (if g.isCheckbox then checkboxCoerce u else u)) k
          = dictFind nd k :=
        dictFind_set_ne nd _ (fun he => hgk he.symm)
      constructor
      · intro hex
        obtain ⟨g2, hg2, he⟩ := hex
        rcases List.mem_cons.mp hg2 with hh | hh
        · subst hh; exact absurd he hgk
        · exact hrest.1 ⟨g2, hh, he⟩
      · intro hall
        rw [hrest.2 (fun g2 hg2 => hall g2 (by simp [hg2])), hnd1]

theorem buildForm_defaults_contains (fs : List Field) :
    ∀ fb : FormBuild,
      (∀ f ∈ fb.fields, dictContains fb.defaults f.name = true) →
      ∀ f ∈ (fs.foldl addField fb).fields,
        dictContains (fs.foldl addField fb).defaults f.name = true := by
  induction fs with
  | nil => intro fb h; simpa using h
  | cons g rest ih =>
    intro fb h
    rw [List.foldl_cons]
    apply ih
    intro f hf
    rcases List.mem_append.mp hf with hf | hf
    · exact dictContains_setdefault_mono _ _ _ _ (h f hf)
    · rw [List.mem_singleton.mp hf]
      exact dictContains_setdefault_self _ _ _

theorem readData_validated {t : FormState} {d : Dict} {t2 : FormState}
    (h : readData t = some (d, t2)) : t2.validated = t.validated := by
  unfold readData at h
  cases hc : t.dataCache with
  | some d0 =>
    rw [hc] at h
    simp only [Option.some.injEq, Prod.mk.injEq] at h
    rw [← h.2]
  | none =>
    rw [hc] at h
    dsimp only at h
    cases hcd : cleanData t.fields
        (mergeData t.defaults (updateNuciData t.findChild t.fields t.nuciData) t.requestData) with
    | some d1 =>
      rw [hcd] at h
      simp only [Option.some.injEq, Prod.mk.injEq] at h
      rw [← h.2]
    | none => rw [hcd] at h; simp at h

theorem processCallbacks_ok (d : Dict) :
    ∀ cbs : List (Dict → CbResult),
      (∀ cb ∈ cbs, isOtherTag (cb d) = false) →
      processCallbacks cbs d = (stagedEdits cbs d, Option.none) := by
  intro cbs
  induction cbs with
  | nil => intro _; rfl
  | cons cb rest ih =>
    intro h
    have hcb := h cb (by simp)
    have hrest := ih (fun c hc => h c (by simp [hc]))
    cases hres : cb d with
    | noneOp => simp [processCallbacks, stagedEdits, hres, hrest]
    | editConfig p => simp [processCallbacks, stagedEdits, hres, hrest]
    | other tag => rw [hres] at hcb; simp [isOtherTag] at hcb

theorem stagedEdits_no_commit (cbs : List (Dict → CbResult)) (d : Dict) :
    SaveEvent.commitCall ∉ stagedEdits cbs d := by
  intro h
  unfold stagedEdits at h
  rw [List.mem_filterMap] at h
  obtain ⟨cb, _, hcb⟩ := h
  cases hres : cb d <;> rw [hres] at hcb <;> simp at hcb

theorem processCallbacks_fst_no_commit (d : Dict) :
    ∀ cbs : List (Dict → CbResult),
      SaveEvent.commitCall ∉ (processCallbacks cbs d).1 := by
  intro cbs
  induction cbs with
  | nil => simp [processCallbacks]
  | cons cb rest ih =>
    cases hres : cb d with
    | noneOp =>
      simp only [processCallbacks, hres]
      exact ih
    | editConfig p =>
      simp only [processCallbacks, hres, List.mem_cons]
      rintro (h | h)
      · exact absurd h (by simp)
      · exact ih h
    | other tag => simp [processCallbacks, hres]

theorem processCallbacks_err (d : Dict) :
    ∀ cbs : List (Dict → CbResult),
      (∃ cb ∈ cbs, isOtherTag (cb d) = true) →
      ∃ tag, (processCallbacks cbs d).2 = some tag := by
  intro cbs
  induction cbs with
  | nil => rintro ⟨cb, h, _⟩; simp at h
  | cons cb rest ih =>
    rintro ⟨c, hc, hother⟩
    rcases List.mem_cons.mp hc with hh | hh
    · subst hh
      cases hres : c d with
      | noneOp => rw [hres] at hother; simp [isOtherTag] at hother
      | editConfig p => rw [hres] at hother; simp [isOtherTag] at hother
      | other tag => exact ⟨tag, by simp [processCallbacks, hres]⟩
    · cases hres : cb d with
      | noneOp =>
        obtain ⟨tag, htag⟩ := ih ⟨c, hh, hother⟩
        exact ⟨tag, by simpa [processCallbacks, hres] using htag⟩
      | editConfig p =>
        obtain ⟨tag, htag⟩ := ih ⟨c, hh, hother⟩
        exact ⟨tag, by simpa [processCallbacks, hres] using htag⟩
      | other tag => exact ⟨tag, by simp [processCallbacks, hres]⟩

theorem getLast?_append_singleton {α : Type} (l : List α) (a : α) :
    (l ++ [a]).getLast? = some a := by
  simp

end SupportLemmas



/-- C1: in the merged data view built by the `data` property, field values
obey strict precedence defaults < remoteData < requestData: with a
default, a remote value and a request value all present the merged map
holds the request value; with only a default and a remote value it holds
the remote value; with only a default it holds the default. -/
theorem merge_precedence (defaults nuciData requestData : Dict)
    (name : String) (d r q : Value) :
    (dictFind defaults name = some d → dictFind nuciData name = some r →
      dictFind requestData name = some q →
      dictFind (mergeData defaults nuciData requestData) name = some q)
    ∧ (dictFind defaults name = some d → dictFind nuciData name = some r →
      dictFind requestData name = Option.none →
      dictFind (mergeData defaults nuciData requestData) name = some r)
    ∧ (dictFind defaults name = some d → dictFind nuciData name = Option.none →
      dictFind requestData name = Option.none →
      dictFind (mergeData defaults nuciData requestData) name = some d) := by
  unfold mergeData dictUpdate
  refine ⟨?_, ?_, ?_⟩
  · intro _ _ hq
    exact dictFind_append_left _ hq
  · intro _ hr hq
    rw [dictFind_append_right _ hq]
    exact dictFind_append_left _ hr
  · intro hd hr hq
    rw [dictFind_append_right _ hq, dictFind_append_right _ hr]
    exact dictFind_append_left _ hd

/-- Witness for C1 at concrete one-field dictionaries. -/
theorem merge_precedence_witness :
    dictFind (mergeData [("n", Value.str "d")] [("n", Value.str "r")]
      [("n", Value.str "q")]) "n" = some (Value.str "q")
    ∧ dictFind (mergeData [("n", Value.str "d")] [("n", Value.str "r")] []) "n"
      = some (Value.str "r")
    ∧ dictFind (mergeData [("n", Value.str "d")] [] []) "n" = some (Value.str "d") :=
  ⟨(merge_precedence [("n", Value.str "d")] [("n", Value.str "r")] [("n", Value.str "q")]
      "n" (Value.str "d") (Value.str "r") (Value.str "q")).1 rfl rfl rfl,
   (merge_precedence [("n", Value.str "d")] [("n", Value.str "r")] []
      "n" (Value.str "d") (Value.str "r") (Value.str "q")).2.1 rfl rfl rfl,
   (merge_precedence [("n", Value.str "d")] [] []
      "n" (Value.str "d") (Value.str "r") (Value.str "q")).2.2 rfl rfl rfl⟩

/-- C2: a field is active iff each of its requirement pairs names a key
present in the map whose value matches (the None sentinel matching any
value); a field with no requirements is always active; and the cleaned
data result holds exactly the coerced merged values of the active
fields. -/
theorem active_fields_requirements (f : Field) (data : Dict)
    (fields : List Field) (nd res : Dict) :
    (hasRequirements f data = true ↔
      ∀ rq ∈ f.requirements, dictContains data rq.1 = true ∧
        (rq.2 = Value.none ∨ dictGet data rq.1 = rq.2))
    ∧ (f.requirements = [] → hasRequirements f data = true)
    ∧ (coerceAll fields data = some nd → cleanData fields data = some res →
       ∀ k, dictFind res k =
         if (activeFieldNames fields nd).contains k
         then dictFind nd k else Option.none) := by
  refine ⟨?_, ?_, ?_⟩
  · unfold hasRequirements
    rw [List.all_eq_true]
    constructor
    · intro h rq hrq
      exact (requirementMet_iff data rq.1 rq.2).mp (h rq hrq)
    · intro h rq hrq
      exact (requirementMet_iff data rq.1 rq.2).mpr (h rq hrq)
  · intro h
    simp [hasRequirements, h]
  · intro hca hcd k
    unfold cleanData at hcd
    rw [hca] at hcd
    simp only [Option.map_some', Option.some.injEq] at hcd
    subst hcd
    exact dictFind_filter_key nd _ k

/-- Witness for C2 at a concrete two-field form. -/
theorem active_fields_requirements_witness :
    hasRequirements exAdvField [("mode", Value.str "advanced")] = true
    ∧ hasRequirements exModeField [] = true
    ∧ dictFind [(("adv" : String), Value.str "x"), ("mode", Value.str "advanced")] "adv"
      = some (Value.str "x") := by
  refine ⟨?_, ?_, ?_⟩
  · exact (active_fields_requirements exAdvField [("mode", Value.str "advanced")]
      [] [] []).1.mpr (by decide)
  · exact (active_fields_requirements exModeField [] [] [] []).2.1 rfl
  · have h := (active_fields_requirements exAdvField
      [("mode", Value.str "advanced"), ("adv", Value.str "x")]
      [exModeField, exAdvField]
      [("adv", Value.str "x"), ("mode", Value.str "advanced")]
      [("adv", Value.str "x"), ("mode", Value.str "advanced")]).2.2 rfl rfl "adv"
    rw [h]
    decide

/-- C3: during data cleaning, a present raw value of a checkbox field is
coerced to False when it is the string "0" and to True when it is any
other non-empty (truthy) value, while present values of non-checkbox
fields pass through unchanged. -/
theorem checkbox_coercion (f : Field) (data nd nd2 : Dict) (v : Value)
    (h : cleanStep data nd f = some nd2) (hv : dictFind data f.name = some v) :
    (f.isCheckbox = true → v = Value.str "0" →
      dictFind nd2 f.name = some (Value.bool false))
    ∧ (f.isCheckbox = true → v ≠ Value.str "0" → truthy v = true →
      dictFind nd2 f.name = some (Value.bool true))
    ∧ (f.isCheckbox = false → dictFind nd2 f.name = some v) := by
  rw [cleanStep_some hv] at h
  have hnd2 : nd2 = dictSet nd f.name (if f.isCheckbox then checkboxCoerce v else v) := by
    simpa using h.symm
  subst hnd2
  refine ⟨?_, ?_, ?_⟩
  · intro hcb h0
    subst h0
    simp [hcb, checkboxCoerce, dictFind_set_self]
  · intro hcb h0 ht
    have hne : (v == Value.str "0") = false := by
      simpa using h0
    simp [hcb, checkboxCoerce, hne, ht, dictFind_set_self]
  · intro hcb
    simp [hcb, dictFind_set_self]

/-- Witness for C3: the string "0", the string "1" on a checkbox, and a
non-checkbox field. -/
theorem checkbox_coercion_witness :
    dictFind [(("cb" : String), Value.bool false)] "cb" = some (Value.bool false)
    ∧ dictFind [(("cb" : String), Value.bool true)] "cb" = some (Value.bool true)
    ∧ dictFind [(("mode" : String), Value.str "0")] "mode" = some (Value.str "0") := by
  refine ⟨?_, ?_, ?_⟩
  · exact (checkbox_coercion exCbField [("cb", Value.str "0")] []
      [("cb", Value.bool false)] (Value.str "0") rfl rfl).1 rfl rfl
  · exact (checkbox_coercion exCbField [("cb", Value.str "1")] []
      [("cb", Value.bool true)] (Value.str "1") rfl rfl).2.1 rfl (by decide) rfl
  · exact (checkbox_coercion exModeField [("mode", Value.str "0")] []
      [("mode", Value.str "0")] (Value.str "0") rfl rfl).2.2 rfl

/-- C9: the `elif field.nuci_path` branch of the remote-data update loop
is unreachable: whenever its condition is truthy, the preceding `if`
branch with the identical condition is taken instead. -/
theorem elif_branch_unreachable (f : Field) :
    (nuciPathTruthy f = true → updateNuciBranch f = NuciBranch.ifBranch)
    ∧ updateNuciBranch f ≠ NuciBranch.elifBranch := by
  unfold updateNuciBranch
  by_cases h : nuciPathTruthy f <;> simp [h]

/-- Witness for C9 at a field with a truthy remote path. -/
theorem elif_branch_unreachable_witness :
    updateNuciBranch
      { name := "a", isCheckbox := false, nuciPath := some "uci.p",
        nuciPreproc := fun v => v, requirements := [], validators := [],
        default := Value.none } = NuciBranch.ifBranch :=
  (elif_branch_unreachable _).1 rfl

/-- C10: constructing a Field through the public API inserts its name into
the owning form defaults (keeping the value `Value.none` stand-in for the
Python None when no default is given), so the merged map contains an entry
for every declared field and the unguarded `data[field.name]` lookup of
`clean_data` never fails. -/
theorem field_registration_defaults (fs : List Field) (nuciData requestData : Dict)
    (fb : FormBuild) (f : Field) :
    (f ∈ (buildForm fs).fields → dictContains (buildForm fs).defaults f.name = true)
    ∧ (dictContains fb.defaults f.name = false →
        dictFind (addField fb f).defaults f.name = some f.default)
    ∧ (cleanData (buildForm fs).fields
        (mergeData (buildForm fs).defaults nuciData requestData)).isSome = true := by
  have hinv : ∀ g ∈ (buildForm fs).fields,
      dictContains (buildForm fs).defaults g.name = true :=
    buildForm_defaults_contains fs emptyBuild (by intro g hg; simp [emptyBuild] at hg)
  refine ⟨fun hf => hinv f hf, ?_, ?_⟩
  · intro h
    exact dictFind_setdefault_fresh _ _ _ h
  · have hall : ∀ g ∈ (buildForm fs).fields,
        dictContains (mergeData (buildForm fs).defaults nuciData requestData) g.name = true := by
      intro g hg
      exact dictContains_merge_of_defaults _ _ _ _ (hinv g hg)
    have hca := coerceAll_isSome hall
    obtain ⟨nd, hnd⟩ := Option.isSome_iff_exists.mp hca
    unfold cleanData
    rw [hnd]
    simp

/-- Witness for C10 at a one-field form. -/
theorem field_registration_witness :
    dictContains (buildForm [exModeField]).defaults "mode" = true
    ∧ dictFind (addField emptyBuild exModeField).defaults "mode" = some Value.none
    ∧ (cleanData (buildForm [exModeField]).fields
        (mergeData (buildForm [exModeField]).defaults [] [])).isSome = true := by
  have h := field_registration_defaults [exModeField] [] [] emptyBuild exModeField
  exact ⟨h.1 (List.mem_singleton.mpr rfl), h.2.1 rfl, h.2.2⟩

/-- C7: the `data` property is memoized: while the cache is populated a
mutation of the request data does not change the value returned by a read,
and after `invalidate_data()` the next read reflects the changed request
data entry. -/
theorem data_cache_invalidation (s : FormState) (d0 rd : Dict)
    (f : Field) (v : Value) (d : Dict) (s2 : FormState) :
    (s.dataCache = some d0 →
      readData (setRequestData s rd) = some (d0, setRequestData s rd))
    ∧ (s.dataCache = some d0 →
      readData (invalidateData (setRequestData s rd)) = some (d, s2) →
      (∀ g ∈ s.fields, g.name = f.name → g.isCheckbox = false) →
      f ∈ s.fields → f.requirements = [] →
      dictFind rd f.name = some v →
      dictFind d f.name = some v) := by
  obtain ⟨rq0, nd0, df0, fl0, fc0, dc0, fmc0, vd0, cbs0⟩ := s
  constructor
  · intro hc
    simp only at hc
    subst hc
    rfl
  · intro _ h hcb hf hreq hv
    simp only [invalidateData, setRequestData, readData] at h
    cases hcd : cleanData fl0 (mergeData df0 (updateNuciData fc0 fl0 nd0) rd) with
    | none => rw [hcd] at h; simp at h
    | some d1 =>
      rw [hcd] at h
      simp only [Option.some.injEq, Prod.mk.injEq] at h
      have hd : d1 = d := h.1
      subst hd
      unfold cleanData at hcd
      cases hca : coerceAll fl0 (mergeData df0 (updateNuciData fc0 fl0 nd0) rd) with
      | none => rw [hca] at hcd; simp at hcd
      | some nd2 =>
        rw [hca] at hcd
        simp only [Option.map_some', Option.some.injEq] at hcd
        have hv2 : dictFind (mergeData df0 (updateNuciData fc0 fl0 nd0) rd) f.name
            = some v := by
          unfold mergeData dictUpdate
          exact dictFind_append_left _ hv
        have hfind := (coerceFold_find hv2 fl0 [] nd2 hcb hca).1 ⟨f, hf, rfl⟩
        have hact : hasRequirements f nd2 = true := by
          simp [hasRequirements, hreq]
        have hcont := activeFieldNames_contains_of hf hact
        rw [← hcd]
        rw [dictFind_filter_key nd2 (fun k => (activeFieldNames fl0 nd2).contains k) f.name]
        rw [hcont]
        simpa using hfind

/-- Witness for C7 at a concrete one-field state: the cached value "1"
survives a request-data mutation, and after invalidation the fresh read
yields the new value "2". -/
theorem data_cache_invalidation_witness :
    readData (setRequestData (exState [("mode", Value.str "1")]
        (some [("mode", Value.str "1")])) [("mode", Value.str "2")])
      = some ([("mode", Value.str "1")],
          setRequestData (exState [("mode", Value.str "1")]
            (some [("mode", Value.str "1")])) [("mode", Value.str "2")])
    ∧ dictFind [(("mode" : String), Value.str "2")] "mode" = some (Value.str "2") := by
  constructor
  · exact (data_cache_invalidation
      (exState [("mode", Value.str "1")] (some [("mode", Value.str "1")]))
      [("mode", Value.str "1")] [("mode", Value.str "2")] exModeField (Value.str "2")
      [("mode", Value.str "2")]
      (exState [("mode", Value.str "2")] (some [("mode", Value.str "2")]))).1 rfl
  · exact (data_cache_invalidation
      (exState [("mode", Value.str "1")] (some [("mode", Value.str "1")]))
      [("mode", Value.str "1")] [("mode", Value.str "2")] exModeField (Value.str "2")
      [("mode", Value.str "2")]
      (exState [("mode", Value.str "2")] (some [("mode", Value.str "2")]))).2
      rfl rfl (by decide) (List.mem_singleton.mpr rfl) rfl rfl

/-- Counterexample to C4: in a concrete run, after the render form was
built and cached, the request data changes and `invalidate_data()` is
called; the next data read recomputes and yields "2", while the next form
read returns the still-cached render form built from the pre-invalidation
data "1" — the two caches are not recomputed together. -/
theorem stale_form_cache_counterexample :
    ((readData exStateStale).map fun p => dictFind p.1 "mode")
      = some (some (Value.str "2"))
    ∧ ((readForm exStateStale).map fun p => dictFind p.1.filledData "mode")
      = some (some (Value.str "1"))
    ∧ exStateStale.dataCache = Option.none
    ∧ (exStateStale.formCache.map RenderForm.filledData)
      = some [("mode", Value.str "1")] :=
  ⟨rfl, rfl, rfl, rfl⟩

/-- C4 amended: `invalidate_data()` clears only the merged-data cache; the
render-form cache is left untouched, so a populated render-form cache is
returned as-is by the next form read even after invalidation, and a data
read after `invalidate_data()` can pair with a render form built from
pre-invalidation data. -/
theorem invalidate_only_data_cache (s : FormState) (fm : RenderForm) :
    ((invalidateData s).dataCache = Option.none
      ∧ (invalidateData s).formCache = s.formCache)
    ∧ (s.formCache = some fm → readForm s = some (fm, s)) := by
  refine ⟨⟨rfl, rfl⟩, ?_⟩
  intro h
  unfold readForm
  rw [h]

/-- Witness for the amended C4 at a state with a populated form cache. -/
theorem invalidate_only_data_cache_witness :
    readForm exCachedState = some (exRenderForm, exCachedState) :=
  (invalidate_only_data_cache exCachedState exRenderForm).2 rfl

/-- C5: when every registered callback returns a "none" or "edit_config"
result, `save()` stages the edit payloads in registration order and issues
exactly one commit call, after all payloads are staged. -/
theorem save_batches_single_commit (s : FormState) (d : Dict) (s1 : FormState)
    (h : readData s = some (d, s1))
    (hcb : ∀ cb ∈ s1.callbacks, isOtherTag (cb d) = false) :
    save s = some (stagedEdits s1.callbacks d ++ [SaveEvent.commitCall],
      Option.none, s1)
    ∧ (stagedEdits s1.callbacks d ++ [SaveEvent.commitCall]).count SaveEvent.commitCall = 1
    ∧ (stagedEdits s1.callbacks d ++ [SaveEvent.commitCall]).getLast?
      = some SaveEvent.commitCall := by
  refine ⟨?_, ?_, ?_⟩
  · unfold save
    rw [h]
    simp only [Option.map_some']
    rw [processCallbacks_ok d s1.callbacks hcb]
  · rw [List.count_append, List.count_eq_zero.mpr (stagedEdits_no_commit s1.callbacks d)]
    simp
  · exact getLast?_append_singleton _ _

/-- Witness for C5: two edit_config callbacks yield both payloads staged
in order followed by the single commit. -/
theorem save_batches_witness :
    save (exSaveState [fun _ => CbResult.editConfig (Value.str "p1"),
        fun _ => CbResult.editConfig (Value.str "p2")])
      = some ([SaveEvent.stage (Value.str "p1"), SaveEvent.stage (Value.str "p2"),
          SaveEvent.commitCall], Option.none,
          exSaveState [fun _ => CbResult.editConfig (Value.str "p1"),
            fun _ => CbResult.editConfig (Value.str "p2")]) :=
  (save_batches_single_commit
    (exSaveState [fun _ => CbResult.editConfig (Value.str "p1"),
      fun _ => CbResult.editConfig (Value.str "p2")])
    [("mode", Value.str "1")]
    (exSaveState [fun _ => CbResult.editConfig (Value.str "p1"),
      fun _ => CbResult.editConfig (Value.str "p2")])
    rfl (by decide)).1

/-- C6: when some registered callback returns a result whose tag is
neither "none" nor "edit_config", `save()` propagates the raised error and
the commit call is never reached. -/
theorem save_unsupported_tag_aborts (s : FormState) (d : Dict) (s1 : FormState)
    (h : readData s = some (d, s1))
    (hbad : ∃ cb ∈ s1.callbacks, isOtherTag (cb d) = true) :
    ∃ tr tag, save s = some (tr, some tag, s1) ∧ SaveEvent.commitCall ∉ tr := by
  obtain ⟨tag, htag⟩ := processCallbacks_err d s1.callbacks hbad
  refine ⟨(processCallbacks s1.callbacks d).1, tag, ?_,
    processCallbacks_fst_no_commit d s1.callbacks⟩
  unfold save
  rw [h]
  simp only [Option.map_some']
  rw [htag]

/-- Witness for C6: a single callback with the unsupported tag "explode"
aborts the save with no commit in the trace. -/
theorem save_unsupported_witness :
    ∃ tr tag, save (exSaveState [fun _ => CbResult.other "explode"])
      = some (tr, some tag, exSaveState [fun _ => CbResult.other "explode"])
      ∧ SaveEvent.commitCall ∉ tr :=
  save_unsupported_tag_aborts
    (exSaveState [fun _ => CbResult.other "explode"])
    [("mode", Value.str "1")]
    (exSaveState [fun _ => CbResult.other "explode"])
    rfl ⟨fun _ => CbResult.other "explode", by simp [exSaveState], rfl⟩

/-- Counterexample to C8: before `validate()`, a field adapter is seeded
with `data.get(name) or ""`, not with the current data value itself — for
a checkbox field whose merged value is False (a falsy value), the adapter
is seeded with the empty string, which differs from the current data
value. -/
theorem adapter_seeding_counterexample :
    (buildAdapter false exCbField [("cb", Value.bool false)]).value = Value.str ""
    ∧ dictGet [(("cb" : String), Value.bool false)] "cb" = Value.bool false
    ∧ Value.str "" ≠ Value.bool false :=
  ⟨rfl, rfl, by decide⟩

/-- C8 amended: before `validate()` an adapter carries no note and is
seeded with the current data value when that value is truthy and with the
empty string otherwise; after `validate()` has set the validated flag, an
adapter carries a non-empty note iff its value fails one of the field
validators (given non-empty validator messages). -/
theorem adapter_binding_amended (f : Field) (data : Dict) (s : FormState)
    (ok : Bool) (s2 : FormState) :
    ((buildAdapter false f data).note = ""
      ∧ (truthy (dictGet data f.name) = true →
          (buildAdapter false f data).value = dictGet data f.name)
      ∧ (truthy (dictGet data f.name) = false →
          (buildAdapter false f data).value = Value.str ""))
    ∧ ((∀ vd ∈ f.validators, vd.msg ≠ "") →
        ((buildAdapter true f data).note ≠ "" ↔
          ∃ vd ∈ f.validators, vd.check (dictGet data f.name) = false))
    ∧ (validateForm s = some (ok, s2) → s2.validated = true) := by
  refine ⟨⟨rfl, ?_, ?_⟩, ?_, ?_⟩
  · intro ht
    simp [buildAdapter, pyOr, ht]
  · intro ht
    simp [buildAdapter, pyOr, ht]
  · intro hmsg
    have hba : buildAdapter true f data = adapterValidate f data := rfl
    rw [hba]
    cases hfind : List.find? (fun vd => !(vd.check (dictGet data f.name))) f.validators with
    | some vd =>
      have hmem := List.mem_of_find?_eq_some hfind
      have hcheck : vd.check (dictGet data f.name) = false := by
        simpa using List.find?_some hfind
      have hnote : (adapterValidate f data).note = vd.msg := by
        unfold adapterValidate
        rw [hfind]
      rw [hnote]
      exact ⟨fun _ => ⟨vd, hmem, hcheck⟩, fun _ => hmsg vd hmem⟩
    | none =>
      have hall := List.find?_eq_none.mp hfind
      have hnote : (adapterValidate f data).note = "" := by
        unfold adapterValidate
        rw [hfind]
      rw [hnote]
      constructor
      · intro hne
        exact absurd rfl hne
      · rintro ⟨vd, hmem, hcheck⟩
        have hc : vd.check (dictGet data f.name) = true := by
          simpa using hall vd hmem
        rw [hcheck] at hc
        simp at hc
  · intro h
    unfold validateForm at h
    cases hrd : readData { s with validated := true } with
    | none => rw [hrd] at h; simp at h
    | some ds =>
      rw [hrd] at h
      simp only [Option.map_some', Option.some.injEq, Prod.mk.injEq] at h
      rw [← h.2]
      exact readData_validated hrd

/-- Witness for the amended C8: a required field with an empty submitted
value carries no note before validation and a note iff its validator fails
after validation; `validateForm` sets the validated flag. -/
theorem adapter_binding_witness :
    (buildAdapter false exValField [("mode", Value.str "")]).note = ""
    ∧ (buildAdapter false exValField [("mode", Value.str "")]).value = Value.str ""
    ∧ ((buildAdapter true exValField [("mode", Value.str "")]).note ≠ "" ↔
        ∃ vd ∈ exValField.validators,
          vd.check (dictGet [(("mode" : String), Value.str "")] "mode") = false)
    ∧ ({ exState [("mode", Value.str "1")] (some [("mode", Value.str "1")]) with
          validated := true } : FormState).validated = true := by
  refine ⟨?_, ?_, ?_, ?_⟩
  · exact (adapter_binding_amended exValField [("mode", Value.str "")]
      (exState [("mode", Value.str "1")] (some [("mode", Value.str "1")])) true
      { exState [("mode", Value.str "1")] (some [("mode", Value.str "1")]) with
        validated := true }).1.1
  · exact (adapter_binding_amended exValField [("mode", Value.str "")]
      (exState [("mode", Value.str "1")] (some [("mode", Value.str "1")])) true
      { exState [("mode", Value.str "1")] (some [("mode", Value.str "1")]) with
        validated := true }).1.2.2 rfl
  · exact (adapter_binding_amended exValField [("mode", Value.str "")]
      (exState [("mode", Value.str "1")] (some [("mode", Value.str "1")])) true
      { exState [("mode", Value.str "1")] (some [("mode", Value.str "1")]) with
        validated := true }).2.1 (by decide)
  · exact (adapter_binding_amended exValField [("mode", Value.str "")]
      (exState [("mode", Value.str "1")] (some [("mode", Value.str "1")])) true
      { exState [("mode", Value.str "1")] (some [("mode", Value.str "1")]) with
        validated := true }).2.2 rfl

end Foris
